import Mathlib

/-!
Verification of the mpool-replace fee-escalation engine (`mpool_replace.py`).

The engine tracks outstanding messages of a blockchain node in two
insertion-ordered dictionaries (`pending_messages`, `working_messages`),
promotes aged pending messages into the working set, replaces due working
messages with escalated fees, records sliding-window statistics on
departures, and persists its whole state as JSON.  The embedding below
follows the Python source line by line: dictionaries become association
lists with dict insertion semantics, floats become exact rationals, epochs
become integers, and the two external effects (the node's
`lotus mpool pending` snapshot and the outcome of `lotus mpool replace`)
become explicit parameters.
-/

namespace MpoolReplace

/-! ### Association lists standing for Python dicts

Python dicts keep insertion order: assigning an existing key updates it in
place, assigning a new key appends it at the end, `del` removes it.  The
tracker dictionaries are keyed by message cid (a string). -/

def lookupA {V : Type} : List (String × V) → String → Option V
  | [], _ => none
  | (k, v) :: rest, key => if k = key then some v else lookupA rest key

def insertA {V : Type} : List (String × V) → String → V → List (String × V)
  | [], key, v => [(key, v)]
  | (k, w) :: rest, key, v =>
    if k = key then (key, v) :: rest else (k, w) :: insertA rest key v

def eraseA {V : Type} : List (String × V) → String → List (String × V)
  | [], _ => []
  | (k, w) :: rest, key =>
    if k = key then eraseA rest key else (k, w) :: eraseA rest key

def keysA {V : Type} (m : List (String × V)) : List String := m.map Prod.fst

@[simp] theorem keysA_nil {V : Type} : keysA ([] : List (String × V)) = [] := rfl

@[simp] theorem keysA_cons {V : Type} (p : String × V) (rest : List (String × V)) :
    keysA (p :: rest) = p.1 :: keysA rest := rfl

theorem mem_keysA_of_lookupA {V : Type} {m : List (String × V)} {k : String} {v : V}
    (h : lookupA m k = some v) : k ∈ keysA m := by
  induction m with
  | nil => simp [lookupA] at h
  | cons p rest ih =>
    obtain ⟨k', v'⟩ := p
    by_cases hk : k' = k
    · subst hk; simp
    · rw [lookupA, if_neg hk] at h
      simp [ih h]

theorem lookupA_eq_none_of_not_mem {V : Type} {m : List (String × V)} {k : String}
    (h : k ∉ keysA m) : lookupA m k = none := by
  induction m with
  | nil => rfl
  | cons p rest ih =>
    obtain ⟨k', v'⟩ := p
    simp only [keysA_cons, List.mem_cons] at h
    push_neg at h
    have hne : k' ≠ k := fun hk => h.1 hk.symm
    rw [lookupA, if_neg hne]
    exact ih h.2

theorem mem_keysA_insertA {V : Type} (m : List (String × V)) (k j : String) (v : V) :
    j ∈ keysA (insertA m k v) ↔ j ∈ keysA m ∨ j = k := by
  induction m with
  | nil => simp [insertA, keysA]
  | cons p rest ih =>
    obtain ⟨k', v'⟩ := p
    by_cases hk : k' = k
    · subst hk
      rw [insertA, if_pos rfl]
      simp only [keysA_cons, List.mem_cons]
      tauto
    · rw [insertA, if_neg hk]
      simp only [keysA_cons, List.mem_cons, ih]
      tauto

theorem mem_keysA_eraseA {V : Type} (m : List (String × V)) (k j : String) :
    j ∈ keysA (eraseA m k) ↔ j ∈ keysA m ∧ j ≠ k := by
  induction m with
  | nil => simp [eraseA]
  | cons p rest ih =>
    obtain ⟨k', v'⟩ := p
    by_cases hk : k' = k
    · subst hk
      rw [eraseA, if_pos rfl]
      simp only [keysA_cons, List.mem_cons, ih]
      constructor
      · rintro ⟨h1, h2⟩; exact ⟨Or.inr h1, h2⟩
      · rintro ⟨h1 | h1, h2⟩
        · exact absurd h1 h2
        · exact ⟨h1, h2⟩
    · rw [eraseA, if_neg hk]
      simp only [keysA_cons, List.mem_cons, ih]
      constructor
      · rintro (h | ⟨h1, h2⟩)
        · exact ⟨Or.inl h, h ▸ hk⟩
        · exact ⟨Or.inr h1, h2⟩
      · rintro ⟨h1 | h1, h2⟩
        · exact Or.inl h1
        · exact Or.inr ⟨h1, h2⟩

theorem lookupA_insertA_self {V : Type} (m : List (String × V)) (k : String) (v : V) :
    lookupA (insertA m k v) k = some v := by
  induction m with
  | nil => simp [insertA, lookupA]
  | cons p rest ih =>
    obtain ⟨k', v'⟩ := p
    by_cases hk : k' = k
    · subst hk
      rw [insertA, if_pos rfl, lookupA, if_pos rfl]
    · rw [insertA, if_neg hk, lookupA, if_neg hk]
      exact ih

theorem lookupA_insertA_ne {V : Type} (m : List (String × V)) (k j : String) (v : V)
    (h : j ≠ k) : lookupA (insertA m k v) j = lookupA m j := by
  have hkj : k ≠ j := fun hk => h hk.symm
  induction m with
  | nil => simp [insertA, lookupA, hkj]
  | cons p rest ih =>
    obtain ⟨k', v'⟩ := p
    by_cases hk : k' = k
    · subst hk
      rw [insertA, if_pos rfl, lookupA, if_neg hkj, lookupA, if_neg hkj]
    · rw [insertA, if_neg hk]
      by_cases hj : k' = j
      · rw [lookupA, if_pos hj, lookupA, if_pos hj]
      · rw [lookupA, if_neg hj, lookupA, if_neg hj]
        exact ih

theorem lookupA_eraseA_self {V : Type} (m : List (String × V)) (k : String) :
    lookupA (eraseA m k) k = none := by
  induction m with
  | nil => rfl
  | cons p rest ih =>
    obtain ⟨k', v'⟩ := p
    by_cases hk : k' = k
    · rw [eraseA, if_pos hk]
      exact ih
    · rw [eraseA, if_neg hk, lookupA, if_neg hk]
      exact ih

theorem lookupA_eraseA_ne {V : Type} (m : List (String × V)) (k j : String)
    (h : j ≠ k) : lookupA (eraseA m k) j = lookupA m j := by
  induction m with
  | nil => rfl
  | cons p rest ih =>
    obtain ⟨k', v'⟩ := p
    by_cases hk : k' = k
    · have hkj : k' ≠ j := by rw [hk]; exact fun e => h e.symm
      rw [eraseA, if_pos hk, ih, lookupA, if_neg hkj]
    · rw [eraseA, if_neg hk]
      by_cases hj : k' = j
      · rw [lookupA, if_pos hj, lookupA, if_pos hj]
      · rw [lookupA, if_neg hj, lookupA, if_neg hj]
        exact ih

theorem keysA_insertA_of_mem {V : Type} (m : List (String × V)) (k : String) (v : V)
    (h : k ∈ keysA m) : keysA (insertA m k v) = keysA m := by
  induction m with
  | nil => simp at h
  | cons p rest ih =>
    obtain ⟨k', v'⟩ := p
    by_cases hk : k' = k
    · subst hk
      rw [insertA, if_pos rfl]
      rfl
    · simp only [keysA_cons, List.mem_cons] at h
      rcases h with h | h
      · exact absurd h.symm hk
      · rw [insertA, if_neg hk]
        simp [ih h]

/-! ### Data model

Direct translation of the module-level `data` document and of the runtime
option set (`parse_args`).  Python floats become exact rationals, Python
ints become integers. -/

/-- One value of `data["working_messages"]`: the per-message record created
at promotion time and rebuilt on every successful replacement. -/
structure WorkingEntry where
  start_epoch : ℤ
  round_epoch : ℤ
  round_fee : ℚ
  last_round_fee : ℚ
  total_age : ℤ
deriving DecidableEq

/-- The `data["statistics"]` record. -/
structure RunStatistics where
  current_epoch : ℤ
  total_pending : ℤ
  total_worked : ℤ
  total_replaced : ℤ
  max_fee : ℚ
  avg_fee : ℚ
  max_age : ℚ
  avg_age : ℚ
deriving DecidableEq

/-- The `data["misc_data"]` record: the two sliding sample windows. -/
structure MiscData where
  fees : List ℚ
  ages : List ℤ
deriving DecidableEq

/-- The whole module-level `data` document. -/
structure DataState where
  pending_messages : List (String × ℤ)
  working_messages : List (String × WorkingEntry)
  statistics : RunStatistics
  misc_data : MiscData
deriving DecidableEq

/-- The literal initial value of `data` in the source: empty trackers,
zeroed statistics, and each sample window seeded with a single `0`. -/
def initialData : DataState :=
  { pending_messages := []
    working_messages := []
    statistics :=
      { current_epoch := 0, total_pending := 0, total_worked := 0
        total_replaced := 0, max_fee := 0, avg_fee := 0, max_age := 0, avg_age := 0 }
    misc_data := { fees := [0], ages := [0] } }

/-- The runtime options produced by `parse_args`.  `data_dir` keeps only its
truthiness, which is all the engine tests (`if options.data_dir:`). -/
structure Options where
  min_fee : ℚ
  max_fee : ℚ
  pending_wait_epochs : ℤ
  working_wait_epochs : ℤ
  working_fee_increase : ℚ
  working_fee_mode : String
  max_average_fee_epochs : ℤ
  max_average_age_epochs : ℤ
  data_dir : Bool

/-- Outcome of one `lotus mpool replace --auto --fee-limit <fee> <cid>`
call, classified exactly as the source classifies it: empty stderr with the
new cid on stdout; stderr containing `too low GasPremium`; any other
stderr. -/
inductive ReplaceResult : Type where
  | success (new_cid : String)
  | feeDeltaTooLow
  | otherError
deriving DecidableEq

/-! ### Fee escalation policy (`get_next_round_fee`, `calc_perc`) -/

/-- `calc_perc(number, percentage)`. -/
def calc_perc (number : ℚ) (percentage : ℚ) : ℚ :=
  number * (percentage / 100)

/-- `get_next_round_fee(options, current_fee)`: the next round's fee under
the configured mode; an unrecognized mode logs an error and returns the
input unchanged. -/
def get_next_round_fee (options : Options) (current_fee : ℚ) : ℚ :=
  if options.working_fee_mode = "linear" then
    current_fee + calc_perc options.min_fee options.working_fee_increase
  else if options.working_fee_mode = "exponential" then
    current_fee + calc_perc current_fee options.working_fee_increase
  else
    current_fee

/-! ### Statistics helpers

Python's `round(x, n)` rounds half to even; `statistics.mean` is the
arithmetic mean.  The source applies `round(_, 4)` to the fee statistics
and `round(_, 2)` to the age statistics. -/

/-- Round a rational to the nearest integer, ties to the even integer
(the rounding rule of Python's builtin `round`). -/
def roundHalfEven (q : ℚ) : ℤ :=
  if q - ⌊q⌋ < 1 / 2 then ⌊q⌋
  else if q - ⌊q⌋ > 1 / 2 then ⌊q⌋ + 1
  else if 2 ∣ ⌊q⌋ then ⌊q⌋ else ⌊q⌋ + 1

/-- Python's `round(q, n)` on exact values. -/
def roundTo (n : ℕ) (q : ℚ) : ℚ :=
  (roundHalfEven (q * 10 ^ n) : ℚ) / 10 ^ n

/-- `statistics.mean` of a list of fees. -/
def listMeanQ (l : List ℚ) : ℚ := l.sum / (l.length : ℚ)

/-- `statistics.mean` of a list of ages. -/
def listMeanZ (l : List ℤ) : ℚ := ((l.sum : ℤ) : ℚ) / (l.length : ℚ)

/-- The statistics block run when a working message has left the mpool
(lines 205-221 of the source): append the executed fee and the total age to
their windows, evict the oldest sample of a window that exceeds its
configured capacity, recompute the rounded window means, and fold the new
sample into the rounded running maxima. -/
def record_departure (options : Options) (st : DataState)
    (last_round_fee : ℚ) (total_age : ℤ) : DataState :=
  let fees1 := st.misc_data.fees ++ [last_round_fee]
  let fees2 := if (fees1.length : ℤ) > options.max_average_fee_epochs
    then fees1.drop 1 else fees1
  let ages1 := st.misc_data.ages ++ [total_age]
  let ages2 := if (ages1.length : ℤ) > options.max_average_age_epochs
    then ages1.drop 1 else ages1
  { st with
    misc_data := { fees := fees2, ages := ages2 }
    statistics :=
      { st.statistics with
        avg_fee := roundTo 4 (listMeanQ fees2)
        max_fee := roundTo 4 (if last_round_fee > st.statistics.max_fee
          then last_round_fee else st.statistics.max_fee)
        avg_age := roundTo 2 (listMeanZ ages2)
        max_age := roundTo 2 (if (total_age : ℚ) > st.statistics.max_age
          then (total_age : ℚ) else st.statistics.max_age) } }

/-! ### The processing pipeline (`processing_pipeline`)

The pipeline runs three passes over the snapshot returned by
`lotus mpool pending`: register unseen cids as pending, age pending cids
into the working tracker, then replace due working cids.  Each Python
`for cid in <list of keys>` loop becomes a fold of a per-cid step function
over the key list captured when the loop starts. -/

/-- Body of the first loop (lines 168-173): a snapshot cid tracked in
neither dictionary enters `pending_messages` at the current epoch. -/
def new_message_step (st : DataState) (cid : String) : DataState :=
  if cid ∉ keysA st.pending_messages ∧ cid ∉ keysA st.working_messages then
    { st with
      pending_messages := insertA st.pending_messages cid st.statistics.current_epoch
      statistics := { st.statistics with total_pending := st.statistics.total_pending + 1 } }
  else st

/-- Body of the second loop (lines 176-198): a pending cid gone from the
snapshot is dropped; a pending cid not yet working whose initial wait has
expired is promoted into `working_messages`. -/
def pending_step (options : Options) (snapshot : List String)
    (st : DataState) (cid : String) : DataState :=
  match lookupA st.pending_messages cid with
  | none => st
  | some enqueue_epoch =>
    if cid ∉ snapshot then
      { st with pending_messages := eraseA st.pending_messages cid }
    else if cid ∉ keysA st.working_messages ∧
        st.statistics.current_epoch > enqueue_epoch + options.pending_wait_epochs then
      { st with
        pending_messages := eraseA st.pending_messages cid
        working_messages := insertA st.working_messages cid
          { start_epoch := enqueue_epoch
            round_epoch := enqueue_epoch
            round_fee := options.min_fee
            last_round_fee := options.min_fee
            total_age := 0 }
        statistics := { st.statistics with total_worked := st.statistics.total_worked + 1 } }
    else st

/-- Body of the third loop (lines 202-265): a working cid gone from the
snapshot is recorded into the statistics and dropped; a working cid whose
round wait has expired is replaced, with the three stderr outcomes handled
as in the source. -/
def working_step (options : Options) (snapshot : List String)
    (outcome : String → ℚ → ReplaceResult)
    (st : DataState) (cid : String) : DataState :=
  match lookupA st.working_messages cid with
  | none => st
  | some message =>
    if cid ∉ snapshot then
      let st1 := record_departure options st message.last_round_fee message.total_age
      { st1 with working_messages := eraseA st1.working_messages cid }
    else if st.statistics.current_epoch >
        message.round_epoch + options.working_wait_epochs then
      let fee_to_execute := if message.round_fee ≤ options.max_fee
        then message.round_fee else options.max_fee
      match outcome cid fee_to_execute with
      | ReplaceResult.feeDeltaTooLow =>
        let bumped := { message with round_fee := get_next_round_fee options message.round_fee }
        { st with working_messages := insertA st.working_messages cid bumped }
      | ReplaceResult.otherError => st
      | ReplaceResult.success new_cid =>
        let next_round_fee := get_next_round_fee options message.round_fee
        let total_age := st.statistics.current_epoch - message.start_epoch
        { st with
          working_messages := eraseA
            (insertA st.working_messages new_cid
              { start_epoch := message.start_epoch
                round_epoch := st.statistics.current_epoch
                round_fee := next_round_fee
                last_round_fee := fee_to_execute
                total_age := total_age }) cid
          statistics := { st.statistics with
            total_replaced := st.statistics.total_replaced + 1 } }
    else st

/-- `processing_pipeline(options)` for one successful snapshot: the three
loops in source order, each folding over the key list captured at the point
the Python loop materializes it. -/
def processing_pipeline (options : Options) (snapshot : List String)
    (outcome : String → ℚ → ReplaceResult) (st : DataState) : DataState :=
  let st1 := snapshot.foldl new_message_step st
  let st2 := (keysA st1.pending_messages).foldl (pending_step options snapshot) st1
  (keysA st2.working_messages).foldl (working_step options snapshot outcome) st2

/-! ### Scheduler tick, shutdown and startup

`run_every_epoch` increments the epoch, exports the state when a data
directory is configured, and only then runs the processing pipeline; the
shutdown handler `cleanup_and_exit` exports the state once more.  The pair
(engine state, last written state file) is threaded explicitly. -/

structure World where
  engine : DataState
  persisted : Option DataState
deriving DecidableEq

/-- The `current_epoch` increment at the top of `run_every_epoch`. -/
def tick_epoch (st : DataState) : DataState :=
  { st with statistics :=
      { st.statistics with current_epoch := st.statistics.current_epoch + 1 } }

/-- One tick of `run_every_epoch` (lines 336-356), with scheduling and
logging elided: tick the epoch, export the (pre-pipeline) state when
`data_dir` is set, then run the processing pipeline. -/
def run_every_epoch (options : Options) (snapshot : List String)
    (outcome : String → ℚ → ReplaceResult) (w : World) : World :=
  let st1 := tick_epoch w.engine
  let persisted1 := if options.data_dir then some st1 else w.persisted
  let st2 := processing_pipeline options snapshot outcome st1
  { engine := st2, persisted := persisted1 }

/-- `cleanup_and_exit` (lines 420-430): on termination, export the current
engine state when `data_dir` is set. -/
def cleanup_and_exit (options : Options) (w : World) : World :=
  if options.data_dir then { w with persisted := some w.engine } else w

/-- What reading and parsing the state file can yield: the file is missing
(`FileNotFoundError`), its contents are not valid JSON
(`json.JSONDecodeError`), or it parses to a state document. -/
inductive ReadResult : Type where
  | fileNotFound
  | jsonDecodeError
  | ok (parsed : DataState)

/-- `import_data` (lines 433-443): `json.load` result replaces the global
`data`; only `FileNotFoundError` is caught (the default state is kept and
written out); a JSON decode error propagates to the caller. -/
def import_data (r : ReadResult) (st : DataState) : Except String DataState :=
  match r with
  | ReadResult.ok parsed => Except.ok parsed
  | ReadResult.fileNotFound => Except.ok st
  | ReadResult.jsonDecodeError => Except.error "json decode error"

/-- Result of the startup sequence: the engine state after `main`'s first
`try` block, and whether the first `run_every_epoch` timer was started. -/
structure StartupResult where
  engine : DataState
  scheduled : Bool
deriving DecidableEq

/-- The first `try` block of `main` (lines 389-408): import persisted data
when `data_dir` is set, adopt the chain's real epoch, and start the first
timer.  An exception escaping any of these steps is caught, logged, and
leaves the rest of the block unexecuted, so no timer is ever started. -/
def main_startup (options : Options) (r : ReadResult) (chain_epoch : ℤ)
    (st0 : DataState) : StartupResult :=
  match (if options.data_dir then import_data r st0 else Except.ok st0) with
  | Except.ok st =>
    { engine := { st with statistics := { st.statistics with current_epoch := chain_epoch } }
      scheduled := true }
  | Except.error _ => { engine := st0, scheduled := false }

/-! ### Generic helper lemmas -/

theorem if_gt_eq_max (a b : ℚ) : (if b > a then b else a) = max a b := by
  rcases le_or_lt b a with h | h
  · rw [if_neg (not_lt.2 h), max_eq_left h]
  · rw [if_pos h, max_eq_right h.le]

/-! ### Claim C4 -/

/-- Claim C4: `get_next_round_fee` returns, in linear mode, the current fee
plus the fixed increment `minFee * (increasePercent / 100)`; in exponential
mode, the current fee plus `currentFee * (increasePercent / 100)`; and for
every other mode string it returns the input fee unchanged. -/
theorem next_round_fee_modes (options : Options) (f : ℚ) :
    (options.working_fee_mode = "linear" →
      get_next_round_fee options f =
        f + options.min_fee * (options.working_fee_increase / 100)) ∧
    (options.working_fee_mode = "exponential" →
      get_next_round_fee options f = f + f * (options.working_fee_increase / 100)) ∧
    (options.working_fee_mode ≠ "linear" → options.working_fee_mode ≠ "exponential" →
      get_next_round_fee options f = f) := by
  refine ⟨fun h => ?_, fun h => ?_, fun h1 h2 => ?_⟩
  · simp only [get_next_round_fee, if_pos h]
    rfl
  · have hne : options.working_fee_mode ≠ "linear" := by rw [h]; decide
    simp only [get_next_round_fee, if_neg hne, if_pos h]
    rfl
  · simp only [get_next_round_fee, if_neg h1, if_neg h2]

theorem next_round_fee_modes_witness :
    get_next_round_fee ⟨7/20, 3/2, 20, 2, 25, "linear", 2880, 2880, true⟩ (3/5) =
      3/5 + (7/20) * (25 / 100) ∧
    get_next_round_fee ⟨7/20, 3/2, 20, 2, 25, "exponential", 2880, 2880, true⟩ (3/5) =
      3/5 + (3/5) * (25 / 100) ∧
    get_next_round_fee ⟨7/20, 3/2, 20, 2, 25, "hybrid", 2880, 2880, true⟩ (3/5) = 3/5 :=
  ⟨(next_round_fee_modes ⟨7/20, 3/2, 20, 2, 25, "linear", 2880, 2880, true⟩ (3/5)).1 rfl,
   (next_round_fee_modes ⟨7/20, 3/2, 20, 2, 25, "exponential", 2880, 2880, true⟩ (3/5)).2.1 rfl,
   (next_round_fee_modes ⟨7/20, 3/2, 20, 2, 25, "hybrid", 2880, 2880, true⟩ (3/5)).2.2
     (by decide) (by decide)⟩

/-! ### Claim C2 -/

/-- Claim C2: for a working entry still in the snapshot whose round is due,
a successful replacement executes the fee `min(roundFee, maxFee)` (so the
executed fee never exceeds `maxFee`), tracks the new cid with `startEpoch`
carried over, `roundEpoch = currentEpoch`, `roundFee` escalated from the
stored pre-clamp `roundFee`, `lastExecutedFee` equal to the executed fee and
`totalAgeEpochs = currentEpoch - startEpoch`, deletes the old entry, and
increments `totalReplaced` by exactly one. -/
theorem working_replace_success_effects (options : Options) (snapshot : List String)
    (outcome : String → ℚ → ReplaceResult) (st : DataState) (cid new_cid : String)
    (m : WorkingEntry)
    (hm : lookupA st.working_messages cid = some m)
    (hsnap : cid ∈ snapshot)
    (hdue : st.statistics.current_epoch > m.round_epoch + options.working_wait_epochs)
    (hout : outcome cid (min m.round_fee options.max_fee) = ReplaceResult.success new_cid)
    (hne : new_cid ≠ cid) :
    min m.round_fee options.max_fee ≤ options.max_fee ∧
    lookupA (working_step options snapshot outcome st cid).working_messages new_cid =
      some { start_epoch := m.start_epoch
             round_epoch := st.statistics.current_epoch
             round_fee := get_next_round_fee options m.round_fee
             last_round_fee := min m.round_fee options.max_fee
             total_age := st.statistics.current_epoch - m.start_epoch } ∧
    lookupA (working_step options snapshot outcome st cid).working_messages cid = none ∧
    (working_step options snapshot outcome st cid).statistics.total_replaced =
      st.statistics.total_replaced + 1 := by
  have hfee : (if m.round_fee ≤ options.max_fee then m.round_fee else options.max_fee) =
      min m.round_fee options.max_fee := (min_def _ _).symm
  simp only [working_step, hm]
  rw [if_neg (not_not_intro hsnap), if_pos hdue, hfee]
  simp only [hout]
  refine ⟨min_le_right _ _, ?_, ?_, trivial⟩
  · rw [lookupA_eraseA_ne _ _ _ hne, lookupA_insertA_self]
  · exact lookupA_eraseA_self _ _

theorem working_replace_success_effects_witness :
    min (1 : ℚ) ((3 : ℚ)/2) ≤ (3 : ℚ)/2 ∧
    lookupA (working_step ⟨7/20, 3/2, 20, 2, 25, "linear", 2880, 2880, true⟩ ["a"]
        (fun c _ => if c = "a" then ReplaceResult.success "b" else ReplaceResult.otherError)
        ⟨[], [("a", ⟨0, 0, 1, 1, 0⟩)], ⟨5, 0, 1, 0, 0, 0, 0, 0⟩, ⟨[0], [0]⟩⟩
        "a").working_messages "b" =
      some { start_epoch := 0, round_epoch := 5
             round_fee := get_next_round_fee ⟨7/20, 3/2, 20, 2, 25, "linear", 2880, 2880, true⟩ 1
             last_round_fee := min (1 : ℚ) ((3 : ℚ)/2), total_age := 5 } ∧
    lookupA (working_step ⟨7/20, 3/2, 20, 2, 25, "linear", 2880, 2880, true⟩ ["a"]
        (fun c _ => if c = "a" then ReplaceResult.success "b" else ReplaceResult.otherError)
        ⟨[], [("a", ⟨0, 0, 1, 1, 0⟩)], ⟨5, 0, 1, 0, 0, 0, 0, 0⟩, ⟨[0], [0]⟩⟩
        "a").working_messages "a" = none ∧
    (working_step ⟨7/20, 3/2, 20, 2, 25, "linear", 2880, 2880, true⟩ ["a"]
        (fun c _ => if c = "a" then ReplaceResult.success "b" else ReplaceResult.otherError)
        ⟨[], [("a", ⟨0, 0, 1, 1, 0⟩)], ⟨5, 0, 1, 0, 0, 0, 0, 0⟩, ⟨[0], [0]⟩⟩
        "a").statistics.total_replaced = 0 + 1 :=
  working_replace_success_effects
    ⟨7/20, 3/2, 20, 2, 25, "linear", 2880, 2880, true⟩ ["a"]
    (fun c _ => if c = "a" then ReplaceResult.success "b" else ReplaceResult.otherError)
    ⟨[], [("a", ⟨0, 0, 1, 1, 0⟩)], ⟨5, 0, 1, 0, 0, 0, 0, 0⟩, ⟨[0], [0]⟩⟩
    "a" "b" ⟨0, 0, 1, 1, 0⟩ rfl (by decide) (by decide) rfl (by decide)

/-! ### Claim C3 -/

/-- Claim C3: a pending entry still in the snapshot and not yet working is
promoted exactly when `currentEpoch > enqueueEpoch + pendingWaitEpochs`
(when `<=` the state is unchanged); promotion creates a working entry with
`startEpoch = roundEpoch = enqueueEpoch`,
`roundFee = lastExecutedFee = minFee` and `totalAgeEpochs = 0`, removes the
pending entry, and increments `totalWorked` (the spec's `totalPromoted`) by
exactly one. -/
theorem pending_promotion_effects (options : Options) (snapshot : List String)
    (st : DataState) (cid : String) (enqueue_epoch : ℤ)
    (hm : lookupA st.pending_messages cid = some enqueue_epoch)
    (hsnap : cid ∈ snapshot)
    (hw : cid ∉ keysA st.working_messages) :
    (st.statistics.current_epoch > enqueue_epoch + options.pending_wait_epochs →
      lookupA (pending_step options snapshot st cid).working_messages cid =
        some { start_epoch := enqueue_epoch, round_epoch := enqueue_epoch
               round_fee := options.min_fee, last_round_fee := options.min_fee
               total_age := 0 } ∧
      cid ∉ keysA (pending_step options snapshot st cid).pending_messages ∧
      (pending_step options snapshot st cid).statistics.total_worked =
        st.statistics.total_worked + 1) ∧
    (st.statistics.current_epoch ≤ enqueue_epoch + options.pending_wait_epochs →
      pending_step options snapshot st cid = st) := by
  simp only [pending_step, hm]
  rw [if_neg (not_not_intro hsnap)]
  constructor
  · intro hgt
    rw [if_pos ⟨hw, hgt⟩]
    refine ⟨lookupA_insertA_self _ _ _, ?_, rfl⟩
    intro hmem
    exact ((mem_keysA_eraseA _ _ _).1 hmem).2 rfl
  · intro hle
    have hc : ¬(cid ∉ keysA st.working_messages ∧
        st.statistics.current_epoch > enqueue_epoch + options.pending_wait_epochs) :=
      fun hc => absurd hc.2 (not_lt.2 hle)
    rw [if_neg hc]

theorem pending_promotion_effects_witness :
    ((21 : ℤ) > 0 + 20 →
      lookupA (pending_step ⟨7/20, 3/2, 20, 2, 25, "linear", 2880, 2880, true⟩ ["a"]
          ⟨[("a", 0)], [], ⟨21, 1, 0, 0, 0, 0, 0, 0⟩, ⟨[0], [0]⟩⟩ "a").working_messages "a" =
        some { start_epoch := 0, round_epoch := 0, round_fee := 7/20
               last_round_fee := 7/20, total_age := 0 } ∧
      "a" ∉ keysA (pending_step ⟨7/20, 3/2, 20, 2, 25, "linear", 2880, 2880, true⟩ ["a"]
          ⟨[("a", 0)], [], ⟨21, 1, 0, 0, 0, 0, 0, 0⟩, ⟨[0], [0]⟩⟩ "a").pending_messages ∧
      (pending_step ⟨7/20, 3/2, 20, 2, 25, "linear", 2880, 2880, true⟩ ["a"]
          ⟨[("a", 0)], [], ⟨21, 1, 0, 0, 0, 0, 0, 0⟩, ⟨[0], [0]⟩⟩ "a").statistics.total_worked =
        0 + 1) ∧
    ((21 : ℤ) ≤ 0 + 20 →
      pending_step ⟨7/20, 3/2, 20, 2, 25, "linear", 2880, 2880, true⟩ ["a"]
        ⟨[("a", 0)], [], ⟨21, 1, 0, 0, 0, 0, 0, 0⟩, ⟨[0], [0]⟩⟩ "a" =
        ⟨[("a", 0)], [], ⟨21, 1, 0, 0, 0, 0, 0, 0⟩, ⟨[0], [0]⟩⟩) :=
  pending_promotion_effects ⟨7/20, 3/2, 20, 2, 25, "linear", 2880, 2880, true⟩ ["a"]
    ⟨[("a", 0)], [], ⟨21, 1, 0, 0, 0, 0, 0, 0⟩, ⟨[0], [0]⟩⟩ "a" 0
    (by decide) (by decide) (by decide)

/-! ### Claim C5 -/

/-- Claim C5: when a due replacement fails with the `too low GasPremium`
classification, no new cid is tracked (the key set of the working tracker
is unchanged), the existing entry keeps `roundEpoch`, `startEpoch`,
`lastExecutedFee` and `totalAgeEpochs` while `roundFee` is escalated in
place, every other entry is untouched, the pending tracker and the
statistics (in particular `totalReplaced`) are unchanged; in linear mode
with `minFee = 0.35` and `increasePercent = 25`, a round fee of `0.6`
escalates to `0.6875`. -/
theorem fee_delta_too_low_effects (options : Options) (snapshot : List String)
    (outcome : String → ℚ → ReplaceResult) (st : DataState) (cid : String)
    (m : WorkingEntry)
    (hm : lookupA st.working_messages cid = some m)
    (hsnap : cid ∈ snapshot)
    (hdue : st.statistics.current_epoch > m.round_epoch + options.working_wait_epochs)
    (hout : outcome cid (min m.round_fee options.max_fee) = ReplaceResult.feeDeltaTooLow) :
    keysA (working_step options snapshot outcome st cid).working_messages =
      keysA st.working_messages ∧
    lookupA (working_step options snapshot outcome st cid).working_messages cid =
      some { m with round_fee := get_next_round_fee options m.round_fee } ∧
    (∀ j, j ≠ cid →
      lookupA (working_step options snapshot outcome st cid).working_messages j =
        lookupA st.working_messages j) ∧
    (working_step options snapshot outcome st cid).pending_messages = st.pending_messages ∧
    (working_step options snapshot outcome st cid).statistics = st.statistics ∧
    (options.working_fee_mode = "linear" → options.min_fee = 7/20 →
      options.working_fee_increase = 25 → m.round_fee = 3/5 →
      get_next_round_fee options m.round_fee = 11/16) := by
  have hfee : (if m.round_fee ≤ options.max_fee then m.round_fee else options.max_fee) =
      min m.round_fee options.max_fee := (min_def _ _).symm
  simp only [working_step, hm]
  rw [if_neg (not_not_intro hsnap), if_pos hdue, hfee]
  simp only [hout]
  refine ⟨keysA_insertA_of_mem _ _ _ (mem_keysA_of_lookupA hm),
    lookupA_insertA_self _ _ _,
    fun j hj => lookupA_insertA_ne _ _ _ _ hj, trivial, trivial, ?_⟩
  intro h1 h2 h3 h4
  rw [h4]
  simp only [get_next_round_fee, calc_perc, if_pos h1, h2, h3]
  norm_num

theorem fee_delta_too_low_effects_witness :
    keysA (working_step ⟨7/20, 3/2, 20, 2, 25, "linear", 2880, 2880, true⟩ ["a"]
        (fun _ _ => ReplaceResult.feeDeltaTooLow)
        ⟨[], [("a", ⟨0, 0, 3/5, 7/20, 0⟩)], ⟨5, 0, 1, 0, 0, 0, 0, 0⟩, ⟨[0], [0]⟩⟩
        "a").working_messages =
      keysA [("a", (⟨0, 0, 3/5, 7/20, 0⟩ : WorkingEntry))] ∧
    lookupA (working_step ⟨7/20, 3/2, 20, 2, 25, "linear", 2880, 2880, true⟩ ["a"]
        (fun _ _ => ReplaceResult.feeDeltaTooLow)
        ⟨[], [("a", ⟨0, 0, 3/5, 7/20, 0⟩)], ⟨5, 0, 1, 0, 0, 0, 0, 0⟩, ⟨[0], [0]⟩⟩
        "a").working_messages "a" =
      some { (⟨0, 0, 3/5, 7/20, 0⟩ : WorkingEntry) with
        round_fee := get_next_round_fee ⟨7/20, 3/2, 20, 2, 25, "linear", 2880, 2880, true⟩ (3/5) } ∧
    (∀ j, j ≠ "a" →
      lookupA (working_step ⟨7/20, 3/2, 20, 2, 25, "linear", 2880, 2880, true⟩ ["a"]
          (fun _ _ => ReplaceResult.feeDeltaTooLow)
          ⟨[], [("a", ⟨0, 0, 3/5, 7/20, 0⟩)], ⟨5, 0, 1, 0, 0, 0, 0, 0⟩, ⟨[0], [0]⟩⟩
          "a").working_messages j =
        lookupA [("a", (⟨0, 0, 3/5, 7/20, 0⟩ : WorkingEntry))] j) ∧
    (working_step ⟨7/20, 3/2, 20, 2, 25, "linear", 2880, 2880, true⟩ ["a"]
        (fun _ _ => ReplaceResult.feeDeltaTooLow)
        ⟨[], [("a", ⟨0, 0, 3/5, 7/20, 0⟩)], ⟨5, 0, 1, 0, 0, 0, 0, 0⟩, ⟨[0], [0]⟩⟩
        "a").pending_messages = [] ∧
    (working_step ⟨7/20, 3/2, 20, 2, 25, "linear", 2880, 2880, true⟩ ["a"]
        (fun _ _ => ReplaceResult.feeDeltaTooLow)
        ⟨[], [("a", ⟨0, 0, 3/5, 7/20, 0⟩)], ⟨5, 0, 1, 0, 0, 0, 0, 0⟩, ⟨[0], [0]⟩⟩
        "a").statistics = ⟨5, 0, 1, 0, 0, 0, 0, 0⟩ ∧
    ((("linear" : String) = "linear") → ((7 : ℚ)/20 = 7/20) → ((25 : ℚ) = 25) →
      ((3 : ℚ)/5 = 3/5) →
      get_next_round_fee ⟨7/20, 3/2, 20, 2, 25, "linear", 2880, 2880, true⟩ (3/5) = 11/16) :=
  fee_delta_too_low_effects ⟨7/20, 3/2, 20, 2, 25, "linear", 2880, 2880, true⟩ ["a"]
    (fun _ _ => ReplaceResult.feeDeltaTooLow)
    ⟨[], [("a", ⟨0, 0, 3/5, 7/20, 0⟩)], ⟨5, 0, 1, 0, 0, 0, 0, 0⟩, ⟨[0], [0]⟩⟩
    "a" ⟨0, 0, 3/5, 7/20, 0⟩ rfl (by decide) (by decide) rfl

/-! ### Claim C6 -/

/-- Claim C6 counterexample: on a departure event the reported mean fee is
the rounded mean, not the exact arithmetic mean of the retained samples:
with fee window `[0, 1]` a departing entry whose executed fee was `1` gives
a window `[0, 1, 1]` with exact mean `2/3` but reported mean `0.6667`. -/
theorem avg_fee_not_exact_mean :
    (working_step ⟨7/20, 3/2, 20, 2, 25, "linear", 2880, 2880, true⟩ []
        (fun _ _ => ReplaceResult.otherError)
        ⟨[], [("c", ⟨0, 0, 1, 1, 5⟩)], ⟨10, 1, 1, 1, 1, 1/2, 5, 5/2⟩, ⟨[0, 1], [0, 5]⟩⟩
        "c").misc_data.fees = [0, 1, 1] ∧
    (working_step ⟨7/20, 3/2, 20, 2, 25, "linear", 2880, 2880, true⟩ []
        (fun _ _ => ReplaceResult.otherError)
        ⟨[], [("c", ⟨0, 0, 1, 1, 5⟩)], ⟨10, 1, 1, 1, 1, 1/2, 5, 5/2⟩, ⟨[0, 1], [0, 5]⟩⟩
        "c").statistics.avg_fee = 6667/10000 ∧
    listMeanQ [0, 1, 1] = 2/3 ∧
    (6667/10000 : ℚ) ≠ 2/3 := by
  refine ⟨rfl, ?_, ?_, by norm_num⟩
  · norm_num [working_step, lookupA, record_departure, listMeanQ, roundTo, roundHalfEven]
  · norm_num [listMeanQ]

/-- Claim C6 (amended): on every departure of a working id from the
snapshot the executed fee is appended to the fee window and the stored
total age to the age window, the oldest sample is evicted when a window
would exceed its capacity (so a window within capacity stays within
capacity), the reported means equal the window means rounded half-to-even
to 4 (fees) resp. 2 (ages) decimal places, the reported maxima fold the new
sample into the previous all-time maximum (likewise rounded), and the
departed entry is discarded. -/
theorem departure_stats_effects (options : Options) (snapshot : List String)
    (outcome : String → ℚ → ReplaceResult) (st : DataState) (cid : String)
    (m : WorkingEntry)
    (hm : lookupA st.working_messages cid = some m)
    (hsnap : cid ∉ snapshot)
    (hf : (st.misc_data.fees.length : ℤ) ≤ options.max_average_fee_epochs)
    (ha : (st.misc_data.ages.length : ℤ) ≤ options.max_average_age_epochs) :
    ((working_step options snapshot outcome st cid).misc_data.fees =
        st.misc_data.fees ++ [m.last_round_fee] ∨
      (working_step options snapshot outcome st cid).misc_data.fees =
        (st.misc_data.fees ++ [m.last_round_fee]).drop 1) ∧
    (((working_step options snapshot outcome st cid).misc_data.fees.length : ℤ) ≤
      options.max_average_fee_epochs) ∧
    (working_step options snapshot outcome st cid).statistics.avg_fee =
      roundTo 4 (listMeanQ (working_step options snapshot outcome st cid).misc_data.fees) ∧
    (working_step options snapshot outcome st cid).statistics.max_fee =
      roundTo 4 (max st.statistics.max_fee m.last_round_fee) ∧
    ((working_step options snapshot outcome st cid).misc_data.ages =
        st.misc_data.ages ++ [m.total_age] ∨
      (working_step options snapshot outcome st cid).misc_data.ages =
        (st.misc_data.ages ++ [m.total_age]).drop 1) ∧
    (((working_step options snapshot outcome st cid).misc_data.ages.length : ℤ) ≤
      options.max_average_age_epochs) ∧
    (working_step options snapshot outcome st cid).statistics.avg_age =
      roundTo 2 (listMeanZ (working_step options snapshot outcome st cid).misc_data.ages) ∧
    (working_step options snapshot outcome st cid).statistics.max_age =
      roundTo 2 (max st.statistics.max_age (m.total_age : ℚ)) ∧
    cid ∉ keysA (working_step options snapshot outcome st cid).working_messages := by
  simp only [working_step, hm]
  rw [if_pos hsnap]
  simp only [record_departure]
  refine ⟨?_, ?_, ?_, ?_, ?_, ?_, ?_, ?_, ?_⟩
  · by_cases hF : ((st.misc_data.fees ++ [m.last_round_fee]).length : ℤ) >
        options.max_average_fee_epochs
    · rw [if_pos hF]; exact Or.inr rfl
    · rw [if_neg hF]; exact Or.inl rfl
  · by_cases hF : ((st.misc_data.fees ++ [m.last_round_fee]).length : ℤ) >
        options.max_average_fee_epochs
    · rw [if_pos hF]
      simp only [List.length_drop, List.length_append, List.length_singleton]
      omega
    · rw [if_neg hF]
      exact le_of_not_lt hF
  · trivial
  · rw [if_gt_eq_max]
  · by_cases hA : ((st.misc_data.ages ++ [m.total_age]).length : ℤ) >
        options.max_average_age_epochs
    · rw [if_pos hA]; exact Or.inr rfl
    · rw [if_neg hA]; exact Or.inl rfl
  · by_cases hA : ((st.misc_data.ages ++ [m.total_age]).length : ℤ) >
        options.max_average_age_epochs
    · rw [if_pos hA]
      simp only [List.length_drop, List.length_append, List.length_singleton]
      omega
    · rw [if_neg hA]
      exact le_of_not_lt hA
  · trivial
  · rw [if_gt_eq_max]
  · intro hmem
    exact ((mem_keysA_eraseA _ _ _).1 hmem).2 rfl

theorem departure_stats_effects_witness :
    ((working_step ⟨7/20, 3/2, 20, 2, 25, "linear", 2880, 2880, true⟩ []
        (fun _ _ => ReplaceResult.otherError)
        ⟨[], [("a", ⟨0, 0, 1, 1, 5⟩)], ⟨10, 1, 1, 0, 0, 0, 0, 0⟩, ⟨[0], [0]⟩⟩
        "a").misc_data.fees = [(0 : ℚ)] ++ [1] ∨
      (working_step ⟨7/20, 3/2, 20, 2, 25, "linear", 2880, 2880, true⟩ []
        (fun _ _ => ReplaceResult.otherError)
        ⟨[], [("a", ⟨0, 0, 1, 1, 5⟩)], ⟨10, 1, 1, 0, 0, 0, 0, 0⟩, ⟨[0], [0]⟩⟩
        "a").misc_data.fees = ([(0 : ℚ)] ++ [1]).drop 1) ∧
    (((working_step ⟨7/20, 3/2, 20, 2, 25, "linear", 2880, 2880, true⟩ []
        (fun _ _ => ReplaceResult.otherError)
        ⟨[], [("a", ⟨0, 0, 1, 1, 5⟩)], ⟨10, 1, 1, 0, 0, 0, 0, 0⟩, ⟨[0], [0]⟩⟩
        "a").misc_data.fees.length : ℤ) ≤ 2880) ∧
    (working_step ⟨7/20, 3/2, 20, 2, 25, "linear", 2880, 2880, true⟩ []
        (fun _ _ => ReplaceResult.otherError)
        ⟨[], [("a", ⟨0, 0, 1, 1, 5⟩)], ⟨10, 1, 1, 0, 0, 0, 0, 0⟩, ⟨[0], [0]⟩⟩
        "a").statistics.avg_fee =
      roundTo 4 (listMeanQ (working_step ⟨7/20, 3/2, 20, 2, 25, "linear", 2880, 2880, true⟩ []
        (fun _ _ => ReplaceResult.otherError)
        ⟨[], [("a", ⟨0, 0, 1, 1, 5⟩)], ⟨10, 1, 1, 0, 0, 0, 0, 0⟩, ⟨[0], [0]⟩⟩
        "a").misc_data.fees) ∧
    (working_step ⟨7/20, 3/2, 20, 2, 25, "linear", 2880, 2880, true⟩ []
        (fun _ _ => ReplaceResult.otherError)
        ⟨[], [("a", ⟨0, 0, 1, 1, 5⟩)], ⟨10, 1, 1, 0, 0, 0, 0, 0⟩, ⟨[0], [0]⟩⟩
        "a").statistics.max_fee = roundTo 4 (max 0 1) ∧
    ((working_step ⟨7/20, 3/2, 20, 2, 25, "linear", 2880, 2880, true⟩ []
        (fun _ _ => ReplaceResult.otherError)
        ⟨[], [("a", ⟨0, 0, 1, 1, 5⟩)], ⟨10, 1, 1, 0, 0, 0, 0, 0⟩, ⟨[0], [0]⟩⟩
        "a").misc_data.ages = [(0 : ℤ)] ++ [5] ∨
      (working_step ⟨7/20, 3/2, 20, 2, 25, "linear", 2880, 2880, true⟩ []
        (fun _ _ => ReplaceResult.otherError)
        ⟨[], [("a", ⟨0, 0, 1, 1, 5⟩)], ⟨10, 1, 1, 0, 0, 0, 0, 0⟩, ⟨[0], [0]⟩⟩
        "a").misc_data.ages = ([(0 : ℤ)] ++ [5]).drop 1) ∧
    (((working_step ⟨7/20, 3/2, 20, 2, 25, "linear", 2880, 2880, true⟩ []
        (fun _ _ => ReplaceResult.otherError)
        ⟨[], [("a", ⟨0, 0, 1, 1, 5⟩)], ⟨10, 1, 1, 0, 0, 0, 0, 0⟩, ⟨[0], [0]⟩⟩
        "a").misc_data.ages.length : ℤ) ≤ 2880) ∧
    (working_step ⟨7/20, 3/2, 20, 2, 25, "linear", 2880, 2880, true⟩ []
        (fun _ _ => ReplaceResult.otherError)
        ⟨[], [("a", ⟨0, 0, 1, 1, 5⟩)], ⟨10, 1, 1, 0, 0, 0, 0, 0⟩, ⟨[0], [0]⟩⟩
        "a").statistics.avg_age =
      roundTo 2 (listMeanZ (working_step ⟨7/20, 3/2, 20, 2, 25, "linear", 2880, 2880, true⟩ []
        (fun _ _ => ReplaceResult.otherError)
        ⟨[], [("a", ⟨0, 0, 1, 1, 5⟩)], ⟨10, 1, 1, 0, 0, 0, 0, 0⟩, ⟨[0], [0]⟩⟩
        "a").misc_data.ages) ∧
    (working_step ⟨7/20, 3/2, 20, 2, 25, "linear", 2880, 2880, true⟩ []
        (fun _ _ => ReplaceResult.otherError)
        ⟨[], [("a", ⟨0, 0, 1, 1, 5⟩)], ⟨10, 1, 1, 0, 0, 0, 0, 0⟩, ⟨[0], [0]⟩⟩
        "a").statistics.max_age = roundTo 2 (max 0 ((5 : ℤ) : ℚ)) ∧
    "a" ∉ keysA (working_step ⟨7/20, 3/2, 20, 2, 25, "linear", 2880, 2880, true⟩ []
        (fun _ _ => ReplaceResult.otherError)
        ⟨[], [("a", ⟨0, 0, 1, 1, 5⟩)], ⟨10, 1, 1, 0, 0, 0, 0, 0⟩, ⟨[0], [0]⟩⟩
        "a").working_messages :=
  departure_stats_effects ⟨7/20, 3/2, 20, 2, 25, "linear", 2880, 2880, true⟩ []
    (fun _ _ => ReplaceResult.otherError)
    ⟨[], [("a", ⟨0, 0, 1, 1, 5⟩)], ⟨10, 1, 1, 0, 0, 0, 0, 0⟩, ⟨[0], [0]⟩⟩
    "a" ⟨0, 0, 1, 1, 5⟩ rfl (by decide) (by decide) (by decide)

/-! ### Claim C10 -/

/-- Claim C10 counterexample: after the first departure the reported mean
fee is not the exact mean of the seed `0` and the first sample: with first
sample `1/3` the exact mean is `1/6` but the reported mean is `0.1667`. -/
theorem seed_mean_not_exact :
    (working_step ⟨1/3, 3/2, 20, 2, 25, "linear", 2880, 2880, true⟩ []
        (fun _ _ => ReplaceResult.otherError)
        ⟨[], [("c", ⟨0, 0, 1/3, 1/3, 1⟩)], ⟨10, 1, 1, 0, 0, 0, 0, 0⟩, ⟨[0], [0]⟩⟩
        "c").misc_data.fees = [0, 1/3] ∧
    (working_step ⟨1/3, 3/2, 20, 2, 25, "linear", 2880, 2880, true⟩ []
        (fun _ _ => ReplaceResult.otherError)
        ⟨[], [("c", ⟨0, 0, 1/3, 1/3, 1⟩)], ⟨10, 1, 1, 0, 0, 0, 0, 0⟩, ⟨[0], [0]⟩⟩
        "c").statistics.avg_fee = 1667/10000 ∧
    (0 + (1/3 : ℚ)) / 2 = 1/6 ∧
    (1667/10000 : ℚ) ≠ 1/6 := by
  refine ⟨rfl, ?_, by norm_num, by norm_num⟩
  norm_num [working_step, lookupA, record_departure, listMeanQ, roundTo, roundHalfEven]

/-- Claim C10 (amended): the fee and age windows are initialized holding a
single seed sample `0` that no departure produced; on the first departure
recorded into such windows the windows become `[0, firstSample]` and the
reported means are the mean of `{0, firstSample}` — rounded half-to-even to
4 resp. 2 decimal places — rather than `firstSample` itself. -/
theorem seed_sample_in_first_mean (options : Options) (snapshot : List String)
    (outcome : String → ℚ → ReplaceResult)
    (p : List (String × ℤ)) (w : List (String × WorkingEntry)) (s : RunStatistics)
    (cid : String) (m : WorkingEntry)
    (hm : lookupA w cid = some m)
    (hsnap : cid ∉ snapshot)
    (hcapF : 2 ≤ options.max_average_fee_epochs)
    (hcapA : 2 ≤ options.max_average_age_epochs) :
    initialData.misc_data = ⟨[0], [0]⟩ ∧
    (working_step options snapshot outcome ⟨p, w, s, ⟨[0], [0]⟩⟩ cid).misc_data.fees =
      [0, m.last_round_fee] ∧
    (working_step options snapshot outcome ⟨p, w, s, ⟨[0], [0]⟩⟩ cid).statistics.avg_fee =
      roundTo 4 ((0 + m.last_round_fee) / 2) ∧
    (working_step options snapshot outcome ⟨p, w, s, ⟨[0], [0]⟩⟩ cid).misc_data.ages =
      [0, m.total_age] ∧
    (working_step options snapshot outcome ⟨p, w, s, ⟨[0], [0]⟩⟩ cid).statistics.avg_age =
      roundTo 2 (((0 + m.total_age : ℤ) : ℚ) / 2) := by
  have hF : ¬((([(0 : ℚ)] ++ [m.last_round_fee]).length : ℤ) >
      options.max_average_fee_epochs) := by
    simp only [List.singleton_append, List.length_cons, List.length_nil]
    omega
  have hA : ¬((([(0 : ℤ)] ++ [m.total_age]).length : ℤ) >
      options.max_average_age_epochs) := by
    simp only [List.singleton_append, List.length_cons, List.length_nil]
    omega
  simp only [working_step, hm]
  rw [if_pos hsnap]
  simp only [record_departure]
  rw [if_neg hF, if_neg hA]
  refine ⟨rfl, rfl, ?_, rfl, ?_⟩
  · norm_num [listMeanQ]
  · norm_num [listMeanZ]

theorem seed_sample_in_first_mean_witness :
    initialData.misc_data = ⟨[0], [0]⟩ ∧
    (working_step ⟨7/20, 3/2, 20, 2, 25, "linear", 2880, 2880, true⟩ []
        (fun _ _ => ReplaceResult.otherError)
        ⟨[], [("a", ⟨0, 0, 7/20, 7/20, 3⟩)], ⟨10, 1, 1, 0, 0, 0, 0, 0⟩, ⟨[0], [0]⟩⟩
        "a").misc_data.fees = [0, (⟨0, 0, 7/20, 7/20, 3⟩ : WorkingEntry).last_round_fee] ∧
    (working_step ⟨7/20, 3/2, 20, 2, 25, "linear", 2880, 2880, true⟩ []
        (fun _ _ => ReplaceResult.otherError)
        ⟨[], [("a", ⟨0, 0, 7/20, 7/20, 3⟩)], ⟨10, 1, 1, 0, 0, 0, 0, 0⟩, ⟨[0], [0]⟩⟩
        "a").statistics.avg_fee =
      roundTo 4 ((0 + (⟨0, 0, 7/20, 7/20, 3⟩ : WorkingEntry).last_round_fee) / 2) ∧
    (working_step ⟨7/20, 3/2, 20, 2, 25, "linear", 2880, 2880, true⟩ []
        (fun _ _ => ReplaceResult.otherError)
        ⟨[], [("a", ⟨0, 0, 7/20, 7/20, 3⟩)], ⟨10, 1, 1, 0, 0, 0, 0, 0⟩, ⟨[0], [0]⟩⟩
        "a").misc_data.ages = [0, (⟨0, 0, 7/20, 7/20, 3⟩ : WorkingEntry).total_age] ∧
    (working_step ⟨7/20, 3/2, 20, 2, 25, "linear", 2880, 2880, true⟩ []
        (fun _ _ => ReplaceResult.otherError)
        ⟨[], [("a", ⟨0, 0, 7/20, 7/20, 3⟩)], ⟨10, 1, 1, 0, 0, 0, 0, 0⟩, ⟨[0], [0]⟩⟩
        "a").statistics.avg_age =
      roundTo 2 (((0 + (⟨0, 0, 7/20, 7/20, 3⟩ : WorkingEntry).total_age : ℤ) : ℚ) / 2) :=
  seed_sample_in_first_mean ⟨7/20, 3/2, 20, 2, 25, "linear", 2880, 2880, true⟩ []
    (fun _ _ => ReplaceResult.otherError) [] [("a", ⟨0, 0, 7/20, 7/20, 3⟩)]
    ⟨10, 1, 1, 0, 0, 0, 0, 0⟩ "a" ⟨0, 0, 7/20, 7/20, 3⟩
    rfl (by decide) (by decide) (by decide)

/-! ### Claim C7 -/

/-- Claim C7 counterexample: on a concrete tick from the empty state with
snapshot `["a"]`, the persisted state is the pre-pipeline state (empty
pending tracker) while the engine state after the tick tracks `"a"`, so the
state persisted during a tick does not reflect that tick's tracker
updates. -/
theorem persisted_state_misses_current_tick :
    (run_every_epoch ⟨7/20, 3/2, 20, 2, 25, "linear", 2880, 2880, true⟩ ["a"]
      (fun _ _ => ReplaceResult.otherError) ⟨initialData, none⟩).persisted =
      some (tick_epoch initialData) ∧
    (tick_epoch initialData).pending_messages = [] ∧
    (run_every_epoch ⟨7/20, 3/2, 20, 2, 25, "linear", 2880, 2880, true⟩ ["a"]
      (fun _ _ => ReplaceResult.otherError) ⟨initialData, none⟩).engine.pending_messages =
      [("a", 1)] ∧
    (run_every_epoch ⟨7/20, 3/2, 20, 2, 25, "linear", 2880, 2880, true⟩ ["a"]
      (fun _ _ => ReplaceResult.otherError) ⟨initialData, none⟩).persisted ≠
      some (run_every_epoch ⟨7/20, 3/2, 20, 2, 25, "linear", 2880, 2880, true⟩ ["a"]
        (fun _ _ => ReplaceResult.otherError) ⟨initialData, none⟩).engine := by
  refine ⟨rfl, rfl, rfl, ?_⟩
  intro h
  have h' : some (tick_epoch initialData) =
      some (run_every_epoch ⟨7/20, 3/2, 20, 2, 25, "linear", 2880, 2880, true⟩ ["a"]
        (fun _ _ => ReplaceResult.otherError) ⟨initialData, none⟩).engine := h
  have h2 := congrArg DataState.pending_messages (Option.some.inj h')
  have h3 : ([] : List (String × ℤ)) = [("a", 1)] := h2
  exact List.noConfusion h3

/-- Claim C7 (amended): each tick of `run_every_epoch` first increments the
epoch, then persists the pre-pipeline state (when `dataDir` is set), and
only then fetches the snapshot and runs the promotion and escalation
passes, so the state persisted during a tick reflects the previous tick's
tracker updates; `cleanup_and_exit` persists the current engine state once
more at shutdown. -/
theorem scheduler_tick_order (options : Options) (snapshot : List String)
    (outcome : String → ℚ → ReplaceResult) (w : World) :
    (run_every_epoch options snapshot outcome w).persisted =
      (if options.data_dir then some (tick_epoch w.engine) else w.persisted) ∧
    (run_every_epoch options snapshot outcome w).engine =
      processing_pipeline options snapshot outcome (tick_epoch w.engine) ∧
    (cleanup_and_exit options w).persisted =
      (if options.data_dir then some w.engine else w.persisted) := by
  refine ⟨rfl, rfl, ?_⟩
  unfold cleanup_and_exit
  by_cases h : options.data_dir = true
  · rw [if_pos h, if_pos h]
  · rw [if_neg h, if_neg h]

/-! ### Claim C8 -/

/-- Claim C8 evidence: with `dataDir` set, an absent state file leaves the
default (empty) state, adopts the chain epoch and schedules the first tick,
but an unparsable state file raises a decode error that `import_data` does
not catch; `main` catches it, leaving the engine on the empty state with no
first tick ever scheduled, so normal operation does not proceed. -/
theorem startup_state_file_handling :
    main_startup ⟨7/20, 3/2, 20, 2, 25, "linear", 2880, 2880, true⟩
      ReadResult.fileNotFound 100 initialData =
      { engine := { initialData with statistics :=
          { initialData.statistics with current_epoch := 100 } }
        scheduled := true } ∧
    main_startup ⟨7/20, 3/2, 20, 2, 25, "linear", 2880, 2880, true⟩
      ReadResult.jsonDecodeError 100 initialData =
      { engine := initialData, scheduled := false } :=
  ⟨rfl, rfl⟩

/-! ### Claim C9

Concrete scenario of the spec: `minFee = 0.35`, `maxFee = 1.5`,
`pendingWaitEpochs = 20`, `workingWaitEpochs = 2`, linear escalation at
25%.  A message `"m"` is enqueued at epoch 0; the node keeps it (as the
chain of ids `"m"`, then `"m1"`) outstanding and accepts every replacement
with a fresh id. -/

def opts9 : Options := ⟨7/20, 3/2, 20, 2, 25, "linear", 2880, 2880, true⟩

def outcome9 : String → ℚ → ReplaceResult := fun c _ =>
  if c = "m" then ReplaceResult.success "m1"
  else if c = "m1" then ReplaceResult.success "m2"
  else ReplaceResult.otherError

/-- The snapshot the node reports at each epoch of the scenario: the
original id until it is replaced at epoch 21, its replacement after. -/
def snap9 (e : ℤ) : List String := if e ≤ 21 then ["m"] else ["m1"]

/-- State after the tick at epoch 0 in which `"m"` first appeared. -/
def init9 : DataState := processing_pipeline opts9 ["m"] outcome9 initialData

/-- One scenario tick: advance the epoch, then run the pipeline on that
epoch's snapshot. -/
def step9 (st : DataState) : DataState :=
  let st' := tick_epoch st
  processing_pipeline opts9 (snap9 st'.statistics.current_epoch) outcome9 st'

/-- Scenario state at the end of the tick of epoch `n`. -/
def run9 (n : ℕ) : DataState := step9^[n] init9

/-- The quiescent scenario state while `"m"` waits in the pending tracker
at epoch `e`. -/
def pend9 (e : ℤ) : DataState :=
  ⟨[("m", 0)], [], ⟨e, 1, 0, 0, 0, 0, 0, 0⟩, ⟨[0], [0]⟩⟩

/-- Scenario state from the epoch-21 tick (promotion and first replacement)
until the next replacement: the replacement id `"m1"` is tracked. -/
def work9 (e : ℤ) : DataState :=
  ⟨[], [("m1", ⟨0, 21, 7/16, 7/20, 21⟩)], ⟨e, 1, 1, 1, 0, 0, 0, 0⟩, ⟨[0], [0]⟩⟩

/-- Scenario state after the epoch-24 tick: the second replacement id. -/
def done9 : DataState :=
  ⟨[], [("m2", ⟨0, 24, 21/40, 7/16, 24⟩)], ⟨24, 1, 1, 2, 0, 0, 0, 0⟩, ⟨[0], [0]⟩⟩

theorem init9_eq : init9 = pend9 0 := by
  norm_num [init9, pend9, processing_pipeline, new_message_step, pending_step,
    working_step, keysA, lookupA, insertA, eraseA, initialData, opts9, outcome9]

theorem step9_pend9 (e : ℤ) (h : e + 1 ≤ 20) : step9 (pend9 e) = pend9 (e + 1) := by
  have h21 : e + 1 ≤ 21 := by omega
  have hng : ¬(20 < e + 1) := by omega
  norm_num [step9, tick_epoch, snap9, processing_pipeline, new_message_step,
    pending_step, working_step, keysA, lookupA, insertA, eraseA, opts9, outcome9,
    pend9, h21, hng]

theorem run9_succ (n : ℕ) : run9 (n + 1) = step9 (run9 n) :=
  Function.iterate_succ_apply' step9 n init9

theorem run9_pend (n : ℕ) (h : n ≤ 20) : run9 n = pend9 (n : ℤ) := by
  induction n with
  | zero => simpa [run9] using init9_eq
  | succ k ih =>
    have hk : k ≤ 20 := by omega
    have hcast : ((k : ℤ) + 1) = ((k + 1 : ℕ) : ℤ) := by push_cast; ring
    rw [run9_succ, ih hk, step9_pend9 (k : ℤ) (by omega), hcast]

theorem step9_21 : step9 (pend9 20) = work9 21 := by
  have hne1 : ¬("m1" : String) = "m" := by decide
  norm_num [step9, tick_epoch, snap9, processing_pipeline, new_message_step,
    pending_step, working_step, keysA, lookupA, insertA, eraseA, opts9, outcome9,
    pend9, work9, get_next_round_fee, calc_perc, hne1]

theorem step9_work9 (e : ℤ) (h1 : ¬(e + 1 ≤ 21)) (h2 : ¬(23 < e + 1)) :
    step9 (work9 e) = work9 (e + 1) := by
  norm_num [step9, tick_epoch, snap9, processing_pipeline, new_message_step,
    pending_step, working_step, keysA, lookupA, insertA, eraseA, opts9, outcome9,
    work9, h1, h2]

theorem step9_24 : step9 (work9 23) = done9 := by
  have hne1 : ¬("m1" : String) = "m" := by decide
  have hne2 : ¬("m1" : String) = "m2" := by decide
  have hne3 : ¬("m2" : String) = "m1" := by decide
  norm_num [step9, tick_epoch, snap9, processing_pipeline, new_message_step,
    pending_step, working_step, keysA, lookupA, insertA, eraseA, opts9, outcome9,
    work9, done9, get_next_round_fee, calc_perc, hne1, hne2, hne3]

theorem run9_eq_21 : run9 21 = work9 21 := by
  rw [show (21 : ℕ) = 20 + 1 from rfl, run9_succ, run9_pend 20 (by omega),
    show ((20 : ℕ) : ℤ) = (20 : ℤ) by norm_num, step9_21]

theorem run9_eq_22 : run9 22 = work9 22 := by
  rw [show (22 : ℕ) = 21 + 1 from rfl, run9_succ, run9_eq_21,
    step9_work9 21 (by omega) (by omega)]
  norm_num

theorem run9_eq_23 : run9 23 = work9 23 := by
  rw [show (23 : ℕ) = 22 + 1 from rfl, run9_succ, run9_eq_22,
    step9_work9 22 (by omega) (by omega)]
  norm_num

theorem run9_eq_24 : run9 24 = done9 := by
  rw [show (24 : ℕ) = 23 + 1 from rfl, run9_succ, run9_eq_23, step9_24]

/-- Claim C9 counterexample: in the spec scenario the first replacement
does not wait for epoch 24 — by the end of the epoch-21 tick (the very
tick of the promotion) one replacement has already executed, with the
replacement id tracked under round epoch 21. -/
theorem scenario_first_replacement_at_epoch_21 :
    (run9 20).statistics.total_replaced = 0 ∧
    (run9 21).statistics.total_replaced = 1 ∧
    lookupA (run9 21).working_messages "m1" =
      some { start_epoch := 0, round_epoch := 21, round_fee := 7/16
             last_round_fee := 7/20, total_age := 21 } := by
  refine ⟨?_, ?_, ?_⟩
  · rw [run9_pend 20 (by omega)]; rfl
  · rw [run9_eq_21]; rfl
  · rw [run9_eq_21]; rfl

/-- Claim C9 (amended): in the spec scenario the message stays pending
through epoch 20 and is promoted at epoch 21 with round fee `0.35`; because
the promoted entry's round epoch is its enqueue epoch 0, the same epoch-21
tick already replaces it with executed fee `0.35`, producing a new entry
with round fee `0.4375` and round epoch 21; the next replacement then
happens at epoch 24 with executed fee `0.4375`. -/
theorem scenario_trace_linear :
    init9.pending_messages = [("m", 0)] ∧
    (run9 20).pending_messages = [("m", 0)] ∧
    (run9 20).working_messages = [] ∧
    (run9 21).pending_messages = [] ∧
    (run9 21).working_messages =
      [("m1", { start_epoch := 0, round_epoch := 21, round_fee := 7/16
                last_round_fee := 7/20, total_age := 21 })] ∧
    (run9 21).statistics.total_worked = 1 ∧
    (run9 21).statistics.total_replaced = 1 ∧
    (run9 23).working_messages =
      [("m1", { start_epoch := 0, round_epoch := 21, round_fee := 7/16
                last_round_fee := 7/20, total_age := 21 })] ∧
    (run9 24).working_messages =
      [("m2", { start_epoch := 0, round_epoch := 24, round_fee := 21/40
                last_round_fee := 7/16, total_age := 24 })] ∧
    (run9 24).statistics.total_replaced = 2 := by
  refine ⟨?_, ?_, ?_, ?_, ?_, ?_, ?_, ?_, ?_, ?_⟩
  · rw [init9_eq]; rfl
  · rw [run9_pend 20 (by omega)]; rfl
  · rw [run9_pend 20 (by omega)]; rfl
  · rw [run9_eq_21]; rfl
  · rw [run9_eq_21]; rfl
  · rw [run9_eq_21]; rfl
  · rw [run9_eq_21]; rfl
  · rw [run9_eq_23]; rfl
  · rw [run9_eq_24]; rfl
  · rw [run9_eq_24]; rfl

/-! ### Claim C1 -/

/-- A message cid is tracked by at most one of the two dictionaries. -/
def KeyDisjoint (st : DataState) : Prop :=
  ∀ k, k ∈ keysA st.pending_messages → k ∈ keysA st.working_messages → False

theorem new_message_step_working (st : DataState) (c : String) :
    (new_message_step st c).working_messages = st.working_messages := by
  unfold new_message_step
  split <;> rfl

theorem new_message_step_pending_keys (st : DataState) (c : String) (j : String)
    (hj : j ∈ keysA (new_message_step st c).pending_messages) :
    j ∈ keysA st.pending_messages ∨ (j = c ∧ c ∉ keysA st.working_messages) := by
  unfold new_message_step at hj
  by_cases h : c ∉ keysA st.pending_messages ∧ c ∉ keysA st.working_messages
  · rw [if_pos h] at hj
    rcases (mem_keysA_insertA st.pending_messages c j st.statistics.current_epoch).1 hj with
      h1 | h1
    · exact Or.inl h1
    · exact Or.inr ⟨h1, h.2⟩
  · rw [if_neg h] at hj
    exact Or.inl hj

theorem new_pass_facts (l : List String) (st : DataState) :
    (l.foldl new_message_step st).working_messages = st.working_messages ∧
    ∀ j, j ∈ keysA (l.foldl new_message_step st).pending_messages →
      j ∈ keysA st.pending_messages ∨ (j ∈ l ∧ j ∉ keysA st.working_messages) := by
  induction l generalizing st with
  | nil => exact ⟨rfl, fun j hj => Or.inl hj⟩
  | cons c l ih =>
    obtain ⟨ihw, ihp⟩ := ih (new_message_step st c)
    refine ⟨?_, ?_⟩
    · rw [List.foldl_cons, ihw, new_message_step_working]
    · intro j hj
      rw [List.foldl_cons] at hj
      rcases ihp j hj with h1 | ⟨h1, h2⟩
      · rcases new_message_step_pending_keys st c j h1 with h3 | ⟨h3, h4⟩
        · exact Or.inl h3
        · exact Or.inr ⟨by simp [h3], h3 ▸ h4⟩
      · rw [new_message_step_working] at h2
        exact Or.inr ⟨List.mem_cons_of_mem _ h1, h2⟩

theorem pending_step_facts (options : Options) (snapshot : List String)
    (st : DataState) (c : String) :
    (∀ j, j ∈ keysA (pending_step options snapshot st c).pending_messages →
      j ∈ keysA st.pending_messages) ∧
    (KeyDisjoint st → KeyDisjoint (pending_step options snapshot st c)) := by
  cases hl : lookupA st.pending_messages c with
  | none =>
    simp only [pending_step, hl]
    exact ⟨fun j hj => hj, fun h => h⟩
  | some enq =>
    simp only [pending_step, hl]
    by_cases h1 : c ∉ snapshot
    · rw [if_pos h1]
      refine ⟨fun j hj => ((mem_keysA_eraseA _ _ _).1 hj).1, fun hd k hk hw => ?_⟩
      exact hd k ((mem_keysA_eraseA _ _ _).1 hk).1 hw
    · rw [if_neg h1]
      by_cases h2 : c ∉ keysA st.working_messages ∧
          st.statistics.current_epoch > enq + options.pending_wait_epochs
      · rw [if_pos h2]
        refine ⟨fun j hj => ((mem_keysA_eraseA _ _ _).1 hj).1, fun hd k hk hw => ?_⟩
        obtain ⟨hk1, hk2⟩ := (mem_keysA_eraseA _ _ _).1 hk
        rcases (mem_keysA_insertA _ _ _ _).1 hw with hw1 | hw1
        · exact hd k hk1 hw1
        · exact hk2 hw1
      · rw [if_neg h2]
        exact ⟨fun j hj => hj, fun h => h⟩

theorem pending_pass_facts (options : Options) (snapshot : List String)
    (l : List String) (st : DataState) :
    (∀ j, j ∈ keysA ((l.foldl (pending_step options snapshot) st).pending_messages) →
      j ∈ keysA st.pending_messages) ∧
    (KeyDisjoint st → KeyDisjoint (l.foldl (pending_step options snapshot) st)) := by
  induction l generalizing st with
  | nil => exact ⟨fun j hj => hj, fun h => h⟩
  | cons c l ih =>
    obtain ⟨ih1, ih2⟩ := ih (pending_step options snapshot st c)
    obtain ⟨s1, s2⟩ := pending_step_facts options snapshot st c
    refine ⟨fun j hj => ?_, fun hd => ?_⟩
    · rw [List.foldl_cons] at hj
      exact s1 j (ih1 j hj)
    · rw [List.foldl_cons]
      exact ih2 (s2 hd)

theorem working_step_pending (options : Options) (snapshot : List String)
    (outcome : String → ℚ → ReplaceResult) (st : DataState) (c : String) :
    (working_step options snapshot outcome st c).pending_messages = st.pending_messages := by
  cases hl : lookupA st.working_messages c with
  | none =>
    simp only [working_step, hl]
  | some m =>
    simp only [working_step, hl]
    by_cases h1 : c ∉ snapshot
    · rw [if_pos h1]
      rfl
    · rw [if_neg h1]
      by_cases h2 : st.statistics.current_epoch >
          m.round_epoch + options.working_wait_epochs
      · rw [if_pos h2]
        cases outcome c (if m.round_fee ≤ options.max_fee then m.round_fee
          else options.max_fee) <;> rfl
      · rw [if_neg h2]

theorem working_step_disjoint (options : Options) (snapshot : List String)
    (outcome : String → ℚ → ReplaceResult) (st : DataState) (c : String)
    (hfresh : ∀ cid fee n, outcome cid fee = ReplaceResult.success n →
      n ∉ keysA st.pending_messages)
    (hd : KeyDisjoint st) : KeyDisjoint (working_step options snapshot outcome st c) := by
  cases hm : lookupA st.working_messages c with
  | none =>
    simp only [working_step, hm]
    exact hd
  | some m =>
    simp only [working_step, hm]
    by_cases h1 : c ∉ snapshot
    · rw [if_pos h1]
      intro k hk hw
      exact hd k hk ((mem_keysA_eraseA _ _ _).1 hw).1
    · rw [if_neg h1]
      by_cases h2 : st.statistics.current_epoch >
          m.round_epoch + options.working_wait_epochs
      · rw [if_pos h2]
        cases ho : outcome c (if m.round_fee ≤ options.max_fee then m.round_fee
          else options.max_fee) with
        | feeDeltaTooLow =>
          intro k hk hw
          rcases (mem_keysA_insertA _ _ _ _).1 hw with hw1 | hw1
          · exact hd k hk hw1
          · exact hd k hk (hw1 ▸ mem_keysA_of_lookupA hm)
        | otherError => exact hd
        | success n =>
          intro k hk hw
          obtain ⟨hw0, hwc⟩ := (mem_keysA_eraseA _ _ _).1 hw
          rcases (mem_keysA_insertA _ _ _ _).1 hw0 with hw1 | hw1
          · exact hd k hk hw1
          · exact hfresh c _ n ho (hw1 ▸ hk)
      · rw [if_neg h2]
        exact hd

theorem working_pass_facts (options : Options) (snapshot : List String)
    (outcome : String → ℚ → ReplaceResult) (l : List String) (st : DataState)
    (hfresh : ∀ cid fee n, outcome cid fee = ReplaceResult.success n →
      n ∉ keysA st.pending_messages) :
    ((l.foldl (working_step options snapshot outcome) st).pending_messages =
      st.pending_messages) ∧
    (KeyDisjoint st → KeyDisjoint (l.foldl (working_step options snapshot outcome) st)) := by
  induction l generalizing st with
  | nil => exact ⟨rfl, fun h => h⟩
  | cons c l ih =>
    have hp := working_step_pending options snapshot outcome st c
    have hfresh2 : ∀ cid fee n, outcome cid fee = ReplaceResult.success n →
        n ∉ keysA (working_step options snapshot outcome st c).pending_messages := by
      intro cid fee n h
      rw [hp]
      exact hfresh cid fee n h
    obtain ⟨ih1, ih2⟩ := ih (working_step options snapshot outcome st c) hfresh2
    refine ⟨?_, fun hd => ?_⟩
    · rw [List.foldl_cons, ih1, hp]
    · rw [List.foldl_cons]
      exact ih2 (working_step_disjoint options snapshot outcome st c hfresh hd)

/-- Claim C1: starting from a state in which every cid is tracked by at
most one of the pending and working dictionaries, and provided the node
returns fresh cids for replacements (a successful replacement's new cid is
neither a tracked pending cid nor in the snapshot), one whole pipeline tick
preserves the disjointness, and no cid that was in the working tracker at
the start of the tick ends the tick in the pending tracker. -/
theorem pending_working_disjoint_after_pipeline (options : Options)
    (snapshot : List String) (outcome : String → ℚ → ReplaceResult) (st : DataState)
    (hd : KeyDisjoint st)
    (hfresh : ∀ cid fee n, outcome cid fee = ReplaceResult.success n →
      n ∉ keysA st.pending_messages ∧ n ∉ snapshot) :
    KeyDisjoint (processing_pipeline options snapshot outcome st) ∧
    ∀ j, j ∈ keysA st.working_messages →
      j ∉ keysA (processing_pipeline options snapshot outcome st).pending_messages := by
  obtain ⟨hw1, hp1⟩ := new_pass_facts snapshot st
  obtain ⟨hp2, hd2f⟩ := pending_pass_facts options snapshot
    (keysA (snapshot.foldl new_message_step st).pending_messages)
    (snapshot.foldl new_message_step st)
  have hd1 : KeyDisjoint (snapshot.foldl new_message_step st) := by
    intro k hk hkw
    have hkw2 : k ∈ keysA st.working_messages := by rw [← hw1]; exact hkw
    rcases hp1 k hk with h | ⟨_, h⟩
    · exact hd k h hkw2
    · exact h hkw2
  have hfresh2 : ∀ cid fee n, outcome cid fee = ReplaceResult.success n →
      n ∉ keysA ((keysA (snapshot.foldl new_message_step st).pending_messages).foldl
        (pending_step options snapshot)
        (snapshot.foldl new_message_step st)).pending_messages := by
    intro cid fee n h hn
    have hn1 := hp2 n hn
    rcases hp1 n hn1 with h1 | ⟨h1, _⟩
    · exact (hfresh cid fee n h).1 h1
    · exact (hfresh cid fee n h).2 h1
  obtain ⟨hp3, hd3f⟩ := working_pass_facts options snapshot outcome
    (keysA ((keysA (snapshot.foldl new_message_step st).pending_messages).foldl
      (pending_step options snapshot) (snapshot.foldl new_message_step st)).working_messages)
    ((keysA (snapshot.foldl new_message_step st).pending_messages).foldl
      (pending_step options snapshot) (snapshot.foldl new_message_step st))
    hfresh2
  constructor
  · exact hd3f (hd2f hd1)
  · intro j hj hjp
    have hjp3 : j ∈ keysA (((keysA ((keysA
        (snapshot.foldl new_message_step st).pending_messages).foldl
        (pending_step options snapshot)
        (snapshot.foldl new_message_step st)).working_messages).foldl
        (working_step options snapshot outcome)
        ((keysA (snapshot.foldl new_message_step st).pending_messages).foldl
          (pending_step options snapshot)
          (snapshot.foldl new_message_step st))).pending_messages) := hjp
    rw [hp3] at hjp3
    have hj1 := hp2 j hjp3
    rcases hp1 j hj1 with h1 | ⟨_, h1⟩
    · exact hd j h1 hj
    · exact h1 hj

theorem pending_working_disjoint_after_pipeline_witness :
    KeyDisjoint (processing_pipeline ⟨7/20, 3/2, 20, 2, 25, "linear", 2880, 2880, true⟩
      ["a"] (fun _ _ => ReplaceResult.otherError) initialData) ∧
    ∀ j, j ∈ keysA initialData.working_messages →
      j ∉ keysA (processing_pipeline ⟨7/20, 3/2, 20, 2, 25, "linear", 2880, 2880, true⟩
        ["a"] (fun _ _ => ReplaceResult.otherError) initialData).pending_messages :=
  pending_working_disjoint_after_pipeline
    ⟨7/20, 3/2, 20, 2, 25, "linear", 2880, 2880, true⟩ ["a"]
    (fun _ _ => ReplaceResult.otherError) initialData
    (fun k hk _ => absurd hk (List.not_mem_nil k))
    (fun _ _ _ h => ReplaceResult.noConfusion h)

end MpoolReplace
